import Mathlib

set_option maxRecDepth 4000

/-!
Verification development for the mbf-io repository.

We embed the two algorithmic cores of the repository:
  * `src/mbfio/polygons.py`   — ray-casting point-in-polygon test and rasterizer
    (namespace `Polygons`); floating point arithmetic is idealised as exact
    rationals; the per-call random ray `np.random.randn(dim)` is made an
    explicit parameter of the functions that consume it.
  * `src/mbfio/asc.py`        — the streaming parser `parse_contours` for the
    nested-parenthesis ASC format (namespace `Asc`), as a fuel-indexed
    interpreter over the file's list of physical lines (`none` = the Python
    code would still be looping when the fuel runs out; `some (Except.error e)`
    = the Python code raises exception `e`).
  * `src/mbfio/contours_asc.py` — the voxel-space variant's point decoder
    (namespace `Vox`).

Python's `re` micro-grammars (three patterns built from `\d+`,
`[\+\-]?\d+\.?\d*(?:[eE][\+\-]?\d+)?` and `\w+`) are implemented as
deterministic matchers over `List Char`; on these patterns the greedy
longest-match strategy (with a complete-prefix lookahead for the optional
exponent group) coincides with Python's backtracking semantics because every
atom is followed by a disjoint character class.
-/

abbrev Str := List Char

def strOf (s : String) : Str := s.data

/-- Whitespace test used both for Python's `str.strip` and for the regex
class `\s` (inputs are ASCII). -/
def isWs (c : Char) : Bool := c.isWhitespace

/-- Regex class `\w`. -/
def isWordChar (c : Char) : Bool := c.isAlphanum || c = '_'

def lstrip (s : Str) : Str := s.dropWhile isWs

def rstrip (s : Str) : Str := (s.reverse.dropWhile isWs).reverse

def strip (s : Str) : Str := lstrip (rstrip s)

/-- `line.split(';')[0]`: everything before the first `;`. -/
def beforeSemi (s : Str) : Str := s.takeWhile (fun c => c ≠ ';')

/-- `strip_line` of `asc.py` (and `contours_asc.py`): cut the comment and
trim. -/
def stripLine (s : Str) : Str := strip (beforeSemi s)

/-- Index of the first occurrence of a character (Python `str.index`,
`in`). -/
def indexOf (c : Char) : Str → Option Nat
  | [] => none
  | d :: rest => if d = c then some 0 else (indexOf c rest).map (· + 1)

def containsChar (c : Char) (s : Str) : Bool := (indexOf c s).isSome

/-- Numeric value of a digit run. -/
def digitsVal (ds : Str) : Nat := ds.foldl (fun a c => 10 * a + (c.toNat - 48)) 0

/-- Greedy digit run. -/
def takeDigits (s : Str) : Str × Str := (s.takeWhile Char.isDigit, s.dropWhile Char.isDigit)

/-- Optional exponent group `(?:[eE][\+\-]?\d+)?`: taken only when the whole
group is present (equivalent to the backtracking semantics here, since the
continuation of the float pattern never matches an `e`). -/
def matchExp (s : Str) : Int × Str :=
  match s with
  | [] => (0, [])
  | c :: r =>
    if c = 'e' ∨ c = 'E' then
      let (sgn, r1) : Int × Str :=
        match r with
        | '+' :: t => (1, t)
        | '-' :: t => (-1, t)
        | _ => (1, r)
      let (ds, r2) := takeDigits r1
      if ds = [] then (0, c :: r) else (sgn * (digitsVal ds : Int), r2)
    else (0, c :: r)

/-- The float pattern `[\+\-]?\d+\.?\d*(?:[eE][\+\-]?\d+)?`, returning the
value `float(...)` would produce (idealised as an exact rational) and the
unconsumed rest. -/
def matchFloat (s : Str) : Option (ℚ × Str) :=
  let (sgn, s1) : ℚ × Str :=
    match s with
    | '+' :: r => (1, r)
    | '-' :: r => (-1, r)
    | _ => (1, s)
  let (d1, s2) := takeDigits s1
  if d1 = [] then none
  else
    let (frac, s3) :=
      match s2 with
      | '.' :: r => takeDigits r
      | _ => ([], s2)
    let (e, s4) := matchExp s3
    let mant : ℚ := (digitsVal d1 : ℚ) + (digitsVal frac : ℚ) / ((10 : ℚ) ^ frac.length)
    some (sgn * mant * (10 : ℚ) ^ e, s4)

/-- `\s+`. -/
def matchWs1 (s : Str) : Option Str :=
  let w := s.takeWhile isWs
  if w = [] then none else some (s.dropWhile isWs)

/-- `\w+`. -/
def matchWord (s : Str) : Option (Str × Str) :=
  let w := s.takeWhile isWordChar
  if w = [] then none else some (w, s.dropWhile isWordChar)

/-- `"(?P<name>[^"]*)"`. -/
def matchQuoted (s : Str) : Option (Str × Str) :=
  match s with
  | '"' :: r =>
    let q := r.takeWhile (fun c => c ≠ '"')
    match r.dropWhile (fun c => c ≠ '"') with
    | '"' :: r2 => some (q, r2)
    | _ => none
  | _ => none

/-- Captured groups of the section-fact pattern of `parse_section`
(`asc.py` lines 87-90): `(?P<key>\w+)\s+"(?P<name>[^"]*)"\s+(?P<z>F)\s+(?P<y>F)\s+(?P<x>F)\s*`. -/
structure SecGroups where
  key : Str
  name : Str
  z : ℚ
  y : ℚ
  x : ℚ
  deriving DecidableEq

/-- Anchored match (`re.match`) of the section-fact pattern; trailing
unmatched input is allowed, as with `re.match`. -/
def matchSection (s : Str) : Option SecGroups :=
  (matchWord s).bind fun kw =>
  (matchWs1 kw.2).bind fun s1 =>
  (matchQuoted s1).bind fun nq =>
  (matchWs1 nq.2).bind fun s2 =>
  (matchFloat s2).bind fun fz =>
  (matchWs1 fz.2).bind fun s3 =>
  (matchFloat s3).bind fun fy =>
  (matchWs1 fy.2).bind fun s4 =>
  (matchFloat s4).map fun fx =>
    ⟨kw.1, nq.1, fz.1, fy.1, fx.1⟩

/-- Captured groups of the point pattern of `parse_point` (`asc.py` lines
104-108, identical in `contours_asc.py` lines 92-96):
`(?P<x>F)\s+(?P<y>F)\s+(?P<z>F)\s+(?P<unknown>F)\s+(?P<section>\w+)\s*`. -/
structure PtGroups where
  x : ℚ
  y : ℚ
  z : ℚ
  unknown : ℚ
  section_id : Str
  deriving DecidableEq

/-- Anchored match of the point pattern. -/
def matchPoint (s : Str) : Option PtGroups :=
  (matchFloat s).bind fun fx =>
  (matchWs1 fx.2).bind fun s1 =>
  (matchFloat s1).bind fun fy =>
  (matchWs1 fy.2).bind fun s2 =>
  (matchFloat s2).bind fun fz =>
  (matchWs1 fz.2).bind fun s3 =>
  (matchFloat s3).bind fun fu =>
  (matchWs1 fu.2).bind fun s4 =>
  (matchWord s4).map fun w =>
    ⟨fx.1, fy.1, fz.1, fu.1, w.1⟩

namespace Polygons

def dotp (a b : List ℚ) : ℚ := (List.zipWith (fun x y => x * y) a b).sum

def subv (a b : List ℚ) : List ℚ := List.zipWith (fun x y => x - y) a b

def addv (a b : List ℚ) : List ℚ := List.zipWith (fun x y => x + y) a b

def smulv (c : ℚ) (a : List ℚ) : List ℚ := a.map (fun x => c * x)

def negv (a : List ℚ) : List ℚ := a.map (fun x => -x)

/-- 2D normal `np.stack([-u[1], u[0]])` (`polygons.py` line 107). -/
def perp2 (u : List ℚ) : List ℚ := [-(u.getD 1 0), u.getD 0 0]

/-- 3D cross product (`polygons.py` lines 101-103). -/
def cross3 (u v : List ℚ) : List ℚ :=
  [u.getD 1 0 * v.getD 2 0 - u.getD 2 0 * v.getD 1 0,
   u.getD 2 0 * v.getD 0 0 - u.getD 0 0 * v.getD 2 0,
   u.getD 0 0 * v.getD 1 0 - u.getD 1 0 * v.getD 0 0]

/-- `np.finfo(np.float64).resolution`. -/
def eps : ℚ := 1 / 10 ^ 15

/-- The co-linearity test `np.abs(np.dot(ray_norm, normal_norm)) < eps`
(`polygons.py` lines 110-112), stated without square roots:
for nonzero vectors `|r̂·n̂| < eps ↔ (r·n)² < eps²(r·r)(n·n)`, and when either
norm is zero NumPy's normalisation yields NaN and `NaN < eps` is `False`,
exactly as `(r·n)² < 0` is false here. -/
def colinearChk (ray normal : List ℚ) : Bool :=
  decide ((dotp ray normal) ^ 2 < eps ^ 2 * (dotp ray ray * dotp normal normal))

/-- `vertices[face]` (rows of `vertices` selected by the index row `face`). -/
def faceVerts (vertices : List (List ℚ)) (face : List Nat) : List (List ℚ) :=
  face.map (fun i => vertices.getD i [])

/-- Normal vector of a face (`polygons.py` lines 97-107).  For `dim = 3` the
cross product of the two edge vectors, otherwise (the code asserts `dim == 2`
before reaching this) the 2D perpendicular. -/
def faceNormal (dim : Nat) (fv : List (List ℚ)) : List ℚ :=
  if dim = 3 then
    cross3 (subv (fv.getD 1 []) (fv.getD 0 [])) (subv (fv.getD 2 []) (fv.getD 0 []))
  else
    perp2 (subv (fv.getD 1 []) (fv.getD 0 []))

/-- Whether the half-line shot from `p` crosses the given face
(`polygons.py` lines 93-141, for a single point of the batch).
The guard `dotp normal ray = 0` mirrors IEEE arithmetic: that branch is
reachable only when the normal (or the ray) is the zero vector, where NumPy
computes `0/0 = NaN` (resp. `inf * 0 = NaN` downstream) and the comparisons
`NaN >= 0` / `NaN < 1` are all `False`, so the face contributes no crossing. -/
def faceCrossing (dim : Nat) (ray : List ℚ) (vertices : List (List ℚ))
    (face : List Nat) (p : List ℚ) : Bool :=
  let fv := faceVerts vertices face
  let origin := fv.getD 0 []
  let normal := faceNormal dim fv
  if colinearChk ray normal then false
  else if dotp normal ray = 0 then false
  else
    let t := dotp normal (subv p origin) / dotp normal ray
    if t < 0 then false
    else
      let x := addv (smulv t (negv ray)) p
      let q := subv x origin
      if dim = 3 then
        let u := subv (fv.getD 1 []) (fv.getD 0 [])
        let v := subv (fv.getD 2 []) (fv.getD 0 [])
        decide (0 ≤ dotp q u ∧ 0 < dotp q v ∧ dotp q u + dotp q v < 1)
      else
        let u := subv (fv.getD 1 []) (fv.getD 0 [])
        let s := dotp q u / dotp u u
        decide (0 ≤ s ∧ s < 1)

/-- Number of faces crossed by the half-line from `p` (the per-point
accumulator `cross`). -/
def crossCount (dim : Nat) (ray : List ℚ) (vertices : List (List ℚ))
    (faces : List (List Nat)) (p : List ℚ) : Nat :=
  faces.countP (fun f => faceCrossing dim ray vertices f p)

/-- `is_inside_slow` (`polygons.py` lines 72-145) on a batch of points given
as a list.  The sampled ray is an explicit argument.  `none` models the
`assert dim == 2` failure, which Python raises inside the face loop whenever
a face is processed with `dim ∉ {2, 3}`. -/
def is_inside_slow (ray : List ℚ) (dim : Nat) (points : List (List ℚ))
    (vertices : List (List ℚ)) (faces : List (List Nat)) : Option (List Bool) :=
  if faces = [] ∨ dim = 2 ∨ dim = 3 then
    some (points.map fun p => decide (crossCount dim ray vertices faces p % 2 = 1))
  else none

/-- Default face synthesis of `is_inside` (`polygons.py` lines 57-60):
consecutive edges plus the wrap-around edge. -/
def defaultFaces (nv : Nat) : List (List Nat) :=
  ((List.range (nv - 1)).map (fun i => [i, i + 1])) ++ [[nv - 1, 0]]

/-- A NumPy array of rationals: row-major data plus a shape. -/
structure NDArray where
  shape : List Nat
  data : List ℚ
  deriving DecidableEq

/-- A boolean NumPy array. -/
structure NDArrayB where
  shape : List Nat
  data : List Bool
  deriving DecidableEq

/-- Row-major chunking of flat data into `count` points of `dim`
coordinates (NumPy's implicit `(..., dim)` view). -/
def chunkPts (count dim : Nat) (data : List ℚ) : List (List ℚ) :=
  (List.range count).map fun i => (data.drop (i * dim)).take dim

/-- `is_inside` (`polygons.py` lines 35-69) in the pure-NumPy configuration
(`jitfields` absent, so `mesh_sdt = None` and the ray-casting fallback runs).
`dim` is `points.shape[-1]` and the batch is every leading axis. -/
def is_inside (ray : List ℚ) (points : NDArray) (vertices : List (List ℚ))
    (faces : Option (List (List Nat))) : Option NDArrayB :=
  let fs :=
    match faces with
    | some fs => fs
    | none => defaultFaces vertices.length
  let dim := points.shape.getLastD 0
  let batch := points.shape.dropLast
  let pts := chunkPts batch.prod dim points.data
  match is_inside_slow ray dim pts vertices fs with
  | none => none
  | some bs => some ⟨batch, bs⟩

/-- All multi-indices of a grid shape in row-major order. -/
def allIdx : List Nat → List (List Nat)
  | [] => [[]]
  | n :: rest => (List.range n).flatMap (fun i => (allIdx rest).map (fun t => i :: t))

/-- `np.indices(shape)`: an array of shape `(len(shape), *shape)` whose
`d`-th slab holds the `d`-th coordinate of every grid point. -/
def npIndices (shape : List Nat) : NDArray :=
  ⟨shape.length :: shape,
   (List.range shape.length).flatMap
     (fun d => (allIdx shape).map (fun idx => ((idx.getD d 0 : Nat) : ℚ)))⟩

/-- `rasterize` (`polygons.py` lines 10-32): build `np.indices(shape)` and
delegate to `is_inside`. -/
def rasterize (ray : List ℚ) (shape : List Nat) (vertices : List (List ℚ))
    (faces : Option (List (List Nat))) : Option NDArrayB :=
  is_inside ray (npIndices shape) vertices faces

end Polygons

/-- Python exceptions that `parse_contours` can raise on the inputs we
model. -/
inductive PyError where
  | keyError
  | valueError
  | indexError
  deriving DecidableEq

namespace Asc

/-- A parsed contour (`shape` dict of `asc.py` lines 159, 173, 181, 203). -/
structure Contour where
  name : Str
  closed : Bool
  color : Option Str
  points : List (List ℚ)
  deriving DecidableEq

/-- A section record (value built by `parse_section`, `asc.py` lines 94-98). -/
structure Sect where
  name : Str
  top : ℚ
  cutthickness : ℚ
  mountedthickness : ℚ
  contours : List Contour
  deriving DecidableEq

/-- The result document (`asc` dict, `asc.py` line 116). -/
structure Doc where
  description : Str
  regions : List (Str × Nat)
  sections : List (Str × Sect)
  deriving DecidableEq

def emptyDoc : Doc := ⟨[], [], []⟩

/-- Ordered-dictionary lookup. -/
def alookup {β : Type} : List (Str × β) → Str → Option β
  | [], _ => none
  | (k, v) :: rest, key => if k = key then some v else alookup rest key

/-- `d[k] = v` on an insertion-ordered dict: replace in place or append. -/
def assocSet (m : List (Str × Sect)) (k : Str) (v : Sect) : List (Str × Sect) :=
  match alookup m k with
  | some _ => m.map (fun p => if p.1 = k then (k, v) else p)
  | none => m ++ [(k, v)]

/-- `asc['regions'].setdefault(name, 1 + len(asc['regions']))`
(`asc.py` line 209). -/
def registerRegion (regions : List (Str × Nat)) (name : Str) : List (Str × Nat) :=
  match alookup regions name with
  | some _ => regions
  | none => regions ++ [(name, regions.length + 1)]

/-- `asc['sections'][section]['contours'].append(shape)` (`asc.py` line 211);
`none` is the `KeyError` raised when `section` is not a key. -/
def appendContour (m : List (Str × Sect)) (k : Str) (c : Contour) :
    Option (List (Str × Sect)) :=
  match alookup m k with
  | none => none
  | some sec =>
    some (m.map fun p => if p.1 = k then (k, { sec with contours := sec.contours ++ [c] }) else p)

/-- Finalisation of a contour (`asc.py` lines 209-211): register the region
name, then append the shape to the owning section's contour list.  The
section variable is `none` when the last `parse_point` call failed (Python's
`point, section = parse_point(value)` rebinds `section` to `None`), and a
lookup with `None` or an undeclared id raises `KeyError`. -/
def finalizeContour (doc : Doc) (name : Str) (sectionId : Option Str) (shape : Contour) :
    Except PyError Doc :=
  let regions := registerRegion doc.regions name
  match sectionId with
  | none => .error .keyError
  | some k =>
    match appendContour doc.sections k shape with
    | none => .error .keyError
    | some secs => .ok { doc with regions := regions, sections := secs }

/-- `parse_section` (`asc.py` lines 86-101): on a match, `top` is the **last**
float group (named `x`), `cutthickness` the middle one, `mountedthickness`
the **negated first** one (named `z`). -/
def parse_section (s : Str) : Option (Str × Sect) :=
  (matchSection s).map fun g =>
    (g.key, ⟨g.name, g.x, g.y, -g.z, []⟩)

/-- `parse_point` (`asc.py` lines 103-114): the three coordinate groups are
stored unchanged (`coord = [float(m.group(n)) for n in 'xyz']`). -/
def parse_point (s : Str) : Option (List ℚ × Str) :=
  (matchPoint s).map fun g => ([g.x, g.y, g.z], g.section_id)

/-- One `f.readline()` followed by `strip_line` — at end of file `readline`
returns `''` and `strip_line('') = ''`. -/
def readStripped : List Str → Str × List Str
  | [] => ([], [])
  | l :: rest => (stripLine l, rest)

/-- `is_closing` (`asc.py` lines 74-84).  Returns
`(pre, closed, post, rest-of-stream)`; when the post part is empty the next
line is read and comment-stripped. -/
def is_closing (line : Str) (st : List Str) : Str × Bool × Str × List Str :=
  let (pre, closed, post) :=
    match indexOf ')' line with
    | some i => (rstrip (line.take i), true, lstrip (line.drop (i + 1)))
    | none => (line, false, ([] : Str))
  if post = [] then
    let (p, st') := readStripped st
    (pre, closed, p, st')
  else (pre, closed, post, st)

/-- Drain loop of the `(Description` branch (`asc.py` lines 129-133),
accumulating content until the record closes. -/
def descDrain : Nat → Str → Bool → Str → List Str → Option (Str × Str × List Str)
  | 0, _, _, _, _ => none
  | fuel + 1, acc, closed, line, st =>
    if closed then some (acc, line, st)
    else
      let (v, c, l, st') := is_closing line st
      descDrain fuel (acc ++ v) c l st'

/-- `if value: key, value = parse_section(value); if key: sections[key] = value`
(`asc.py` lines 140-143 and 148-151). -/
def sectionsAdd (m : List (Str × Sect)) (chunk : Str) : List (Str × Sect) :=
  if chunk = [] then m
  else
    match parse_section chunk with
    | some kv => assocSet m kv.1 kv.2
    | none => m

/-- Drain loop of the `(Sections` branch (`asc.py` lines 144-151). -/
def sectionsDrain : Nat → List (Str × Sect) → Bool → Str → List Str →
    Option (List (Str × Sect) × Str × List Str)
  | 0, _, _, _, _ => none
  | fuel + 1, m, closed, line, st =>
    if closed then some (m, line, st)
    else
      let (v, c, l, st') := is_closing line st
      sectionsDrain fuel (sectionsAdd m v) c l st'

/-- Drain loop discarding content until the record closes (`asc.py` lines
205-207 and 216-219). -/
def skipDrain : Nat → Bool → Str → List Str → Option (Str × List Str)
  | 0, _, _, _ => none
  | fuel + 1, closed, line, st =>
    if closed then some (line, st)
    else
      let (_, c, l, st') := is_closing line st
      skipDrain fuel c l st'

/-- Drain loop of the color record (`asc.py` lines 168-172); faithfully the
source accumulates the *post* remainder (`color += line`), not the chunk. -/
def colorDrain : Nat → Str → Bool → Str → List Str → Option (Str × Str × List Str)
  | 0, _, _, _, _ => none
  | fuel + 1, acc, closed, line, st =>
    if closed then some (acc, line, st)
    else
      let (_, c, l, st') := is_closing line st
      colorDrain fuel (acc ++ l) c l st'

/-- Inner read loop of the property-skip branch (`asc.py` lines 186-190):
read lines until one contains `)`; at end of file this loops forever. -/
def propDrain : Nat → List Str → Option (Str × List Str)
  | 0, _ => none
  | fuel + 1, st =>
    let (l, st') := readStripped st
    match indexOf ')' l with
    | some i => some (l.drop (i + 1), st')
    | none => propDrain fuel st'

/-- Processing of one extracted coordinate fragment (`asc.py` lines 199-203):
a fragment not led by a digit or `-` is skipped; otherwise
`point, section = parse_point(value)` rebinds *both* variables (`section`
becomes `None` when the match fails) and a matched point is appended. -/
def processValue (shape : Contour) (sectionId : Option Str) (value : Str) :
    Contour × Option Str :=
  match value with
  | [] => (shape, sectionId)
  | c :: _ =>
    if c.isDigit || c = '-' then
      match parse_point value with
      | some ps => ({ shape with points := shape.points ++ [ps.1] }, some ps.2)
      | none => (shape, none)
    else (shape, sectionId)

/-- The contour-body loop (`asc.py` lines 161-203).  Returns the shape, the
current section id, and the remaining line/stream at the `break` on a
close-bracket-only line; `Except.error` models the Python exceptions raised
on malformed bodies (`IndexError` from `strip_line(line[1:])[0]` on an empty
bracket, `ValueError` from `line.index` when a bracket is missing). -/
def pBody : Nat → Str → List Str → Contour → Option Str →
    Option (Except PyError (Contour × Option Str × Str × List Str))
  | 0, _, _, _, _ => none
  | fuel + 1, line0, st0, shape, sectionId =>
    let ls : Str × List Str := if line0 = [] then readStripped st0 else (line0, st0)
    let line := ls.1
    let st := ls.2
    -- the coordinate part of a body iteration (`asc.py` lines 194-203):
    -- break on a `)`-only line, otherwise slice out the first `(...)` group
    -- and process it
    let doVal : Contour → Option Str →
        Option (Except PyError (Contour × Option Str × Str × List Str)) := fun sh sec =>
      if containsChar ')' line && !containsChar '(' line then
        some (.ok (sh, sec, line, st))
      else
        match indexOf '(' line with
        | none => some (.error .valueError)
        | some i1 =>
          match indexOf ')' line with
          | none => some (.error .valueError)
          | some i2 =>
            let value := strip ((line.drop (i1 + 1)).take (i2 - (i1 + 1)))
            let l2 := strip (line.drop (i2 + 1))
            let sv := processValue sh sec value
            pBody fuel l2 st sv.1 sv.2
    if (strOf "(Color").isPrefixOf line then
      let (c0, closed, l1, st1) := is_closing (lstrip (line.drop 7)) st
      match colorDrain fuel c0 closed l1 st1 with
      | none => none
      | some (color, l2, st2) =>
        pBody fuel l2 st2 { shape with color := some color } sectionId
    else
      match line with
      | '(' :: lrest =>
        match stripLine lrest with
        | [] => some (.error .indexError)
        | c :: _ =>
          if ¬(c.isDigit || c = '-') then
            let shape1 :=
              if (strOf "(Closed").isPrefixOf line then { shape with closed := true } else shape
            match indexOf ')' (stripLine lrest) with
            | some i =>
              pBody fuel (stripLine ((stripLine lrest).drop (i + 1))) st shape1 sectionId
            | none =>
              match propDrain fuel st with
              | none => none
              | some (l1, st1) => pBody fuel (stripLine l1) st1 shape1 sectionId
          else
            doVal shape sectionId
      | _ => doVal shape sectionId

/-- The top-level dispatcher loop of `parse_contours` (`asc.py` lines
118-221).  `line` is the current remainder (`''` forces a read; end of file
with an empty remainder terminates the parse successfully). -/
def pMain : Nat → Str → List Str → Doc → Option (Except PyError Doc)
  | 0, _, _, _ => none
  | fuel + 1, line0, st, doc =>
    let line := stripLine line0
    if line = [] then
      match st with
      | [] => some (.ok doc)
      | l :: rest => pMain fuel l rest doc
    else if (strOf "(Description").isPrefixOf line then
      let (d0, closed, l1, st1) := is_closing (lstrip (line.drop 12)) st
      match descDrain fuel d0 closed l1 st1 with
      | none => none
      | some (descr, l2, st2) =>
        pMain fuel l2 st2 { doc with description := strip descr }
    else if (strOf "(Sections").isPrefixOf line then
      let (v0, closed, l1, st1) := is_closing (lstrip (line.drop 9)) st
      match sectionsDrain fuel (sectionsAdd [] v0) closed l1 st1 with
      | none => none
      | some (m, l2, st2) =>
        pMain fuel l2 st2 { doc with sections := m }
    else if (strOf "(\"").isPrefixOf line then
      let l2 := line.drop 2
      match indexOf '"' l2 with
      | none => some (.error .valueError)
      | some i =>
        let name := l2.take i
        let l3 := lstrip (l2.drop (i + 1))
        match pBody fuel l3 st ⟨name, false, none, []⟩ (some []) with
        | none => none
        | some (.error e) => some (.error e)
        | some (.ok (shape, sec, l4, st4)) =>
          let (_, closed, l5, st5) := is_closing l4 st4
          match skipDrain fuel closed l5 st5 with
          | none => none
          | some (l6, st6) =>
            match finalizeContour doc name sec shape with
            | .error e => some (.error e)
            | .ok doc2 => pMain fuel l6 st6 doc2
    else if (strOf "(").isPrefixOf line then
      let (_, closed, l1, st1) := is_closing (lstrip (line.drop 1)) st
      match skipDrain fuel closed l1 st1 with
      | none => none
      | some (l2, st2) => pMain fuel l2 st2 doc
    else
      -- a nonempty line that opens no bracket: the Python loop re-strips the
      -- same `line` without ever consuming it and spins forever
      pMain fuel line st doc

/-- `parse_contours` (`asc.py` lines 5-221) on a stream given as the list of
its physical lines. -/
def parse_contours (fuel : Nat) (lines : List Str) : Option (Except PyError Doc) :=
  pMain fuel [] lines emptyDoc

/-- The sequence of distinct names in first-occurrence order (the key set of
the `regions` dict in insertion order). -/
def firstSeen (names : List Str) : List Str :=
  names.foldl (fun acc n => if n ∈ acc then acc else acc ++ [n]) []

end Asc

namespace Vox

/-- Voxel-size preprocessing of `read_contours_asc` (`contours_asc.py` lines
52-58): pad the list to length 3 by repeating its last element, truncate to
3, and convert units by a factor `1e3`. -/
def vxPrep (vx : List ℚ) : List ℚ :=
  let ext :=
    match vx.getLast? with
    | some v => vx ++ List.replicate (3 - vx.length) v
    | none => vx
  (ext.take 3).map (fun v => v * 1000)

/-- The decoded point record of `contours_asc.py` (lines 99-105). -/
structure PointVal where
  x : ℚ
  y : ℚ
  z : ℚ
  unknown : ℚ
  section_id : Str
  deriving DecidableEq

/-- `parse_point` of `contours_asc.py` (lines 91-107), closed over the
*prepared* voxel size `vx3` (so callers pass `vxPrep vx`): `x` is divided by
`vx[0]`, `y` and `z` are negated and divided by `vx[1]`, `vx[2]`.  Rational
division is total; the model agrees with Python whenever the voxel sizes are
nonzero (Python would raise `ZeroDivisionError` otherwise). -/
def parse_point (vx3 : List ℚ) (s : Str) : Option PointVal :=
  (matchPoint s).map fun g =>
    ⟨g.x / vx3.getD 0 0, -g.y / vx3.getD 1 0, -g.z / vx3.getD 2 0, g.unknown, g.section_id⟩

end Vox

namespace Polygons

/-- Spec form (§4.4 step 4): the ray/plane intersection parameter for a
query point — "compute the ray/plane intersection parameter". -/
def specRayParam (normal origin ray p : List ℚ) : ℚ :=
  dotp normal (subv p origin) / dotp normal ray

/-- Spec form: the intersection point reached at parameter `t` (the code
shoots the half-line in direction `-ray`). -/
def specHitPoint (ray p : List ℚ) (t : ℚ) : List ℚ :=
  addv (smulv t (negv ray)) p

/-- Spec form (§4.4 step 5): the asymmetric in-extent test — in 2D the edge
parameter lies in `[0,1)`, in 3D the barycentric-style coordinates satisfy
`u ≥ 0`, `v > 0`, `u + v < 1`. -/
def specInExtent (dim : Nat) (fv : List (List ℚ)) (x : List ℚ) : Prop :=
  let origin := fv.getD 0 []
  let q := subv x origin
  let u := subv (fv.getD 1 []) origin
  if dim = 3 then
    let v := subv (fv.getD 2 []) origin
    0 ≤ dotp q u ∧ 0 < dotp q v ∧ dotp q u + dotp q v < 1
  else
    0 ≤ dotp q u / dotp u u ∧ dotp q u / dotp u u < 1

end Polygons

/-- Does a coordinate fragment pass the digit gate of `asc.py` line 199
(`value.startswith(tuple('0'..'9', '-'))`)? -/
def headIsNum (v : Str) : Bool :=
  match v with
  | [] => false
  | c :: _ => c.isDigit || c = '-'

/-- The §8 unit square `[(0,0),(1,0),(1,1),(0,1)]`. -/
def unitSquare : List (List ℚ) := [[0, 0], [1, 0], [1, 1], [0, 1]]

/-- The §8 rasterisation square `[(1,1),(3,1),(3,3),(1,3)]` for a 4×4 grid. -/
def gridSquare : List (List ℚ) := [[1, 1], [3, 1], [3, 3], [1, 3]]

/-- A stream that ends while the `(Description` record is still open. -/
def truncatedInput : List Str := [strOf "(Description"]

/-- A contour whose single point record carries the never-declared section
id `S9`. -/
def undeclaredSectionInput : List Str :=
  [strOf "(\"AAA\"", strOf "( 1 2 3 4 S9)", strOf ")"]

/-- Two declared sections and one contour whose two point records name `S1`
and then `S2`. -/
def twoSectionInput : List Str :=
  [strOf "(Sections S1 \"A\" 1 2 3", strOf " S2 \"B\" 4 5 6", strOf ")",
   strOf "(\"CCC\"", strOf "( 1 2 3 4 S1)", strOf "( 5 6 7 8 S2)", strOf ")"]

/-- Contours named `B`, `A`, `B` in that order within one declared section. -/
def threeContourInput : List Str :=
  [strOf "(Sections S1 \"s\" 1 2 3", strOf ")",
   strOf "(\"B\"", strOf "( 1 2 3 4 S1)", strOf ")",
   strOf "(\"A\"", strOf "( 1 2 3 4 S1)", strOf ")",
   strOf "(\"B\"", strOf "( 5 6 7 8 S1)", strOf ")"]

/-- The section record of the example header in the `asc.py` docstring. -/
def sampleSectionLine : Str := strOf "S1 \"Section 1\" -132 49.5 49.5"

/-- Expected decoding of `sampleSectionLine`: `top` is the last field,
`cutthickness` the middle one, `mountedthickness` the negated first one. -/
def sampleSect : Asc.Sect := ⟨strOf "Section 1", 99/2, 99/2, 132, []⟩

/-! ## Theorems -/

/-- C1 (code_bug): `rasterize` feeds `np.indices(shape)` — an array of shape
`(len(shape), *shape)` with the coordinate axis FIRST — to `is_inside`,
which reads the point dimension off the LAST axis.  On the spec's own 4×4
grid example the inferred `dim` is `4`, so the ray-casting fallback's
`assert dim == 2` fails (an `AssertionError`, modelled as `none`) for every
sampled ray, instead of returning the claimed boolean mask of shape `(4,4)`
classifying each grid point with `is_inside`. -/
theorem C1_rasterize_assert_failure :
    ∀ ray : List ℚ, Polygons.rasterize ray [4, 4] gridSquare none = none := fun _ => rfl

/-- On an exhausted stream the description drain loop of `asc.py` (lines
129-133) makes no progress: `readline()` returns `''` forever, so no fuel
suffices. -/
theorem descDrain_stuck (n : Nat) : ∀ acc : Str, Asc.descDrain n acc false [] [] = none := by
  induction n with
  | zero => intro acc; rfl
  | succ m ih =>
    intro acc
    have h : Asc.descDrain (m + 1) acc false [] [] = Asc.descDrain m (acc ++ []) false [] [] := rfl
    rw [h]
    exact ih _

/-- C2 (code_bug): on a stream that ends while the `(Description` record is
still open, `parse_contours` does NOT terminate with an error: `readline()`
returns `''` at end of file, `is_closing` keeps producing empty remainders,
and the drain loop spins forever — the parse diverges (no amount of fuel
makes it return), rather than failing with `UnexpectedEndOfInput` (no such
error exists anywhere in the code). -/
theorem C2_truncated_stream_diverges :
    ∀ fuel : Nat, Asc.parse_contours fuel truncatedInput = none := by
  intro fuel
  match fuel with
  | 0 => rfl
  | 1 => rfl
  | n + 2 =>
    show Asc.pMain (n + 2) [] truncatedInput Asc.emptyDoc = none
    have h : Asc.pMain (n + 2) [] truncatedInput Asc.emptyDoc =
        (match Asc.descDrain n [] false [] [] with
         | none => none
         | some (descr, l2, st2) =>
             Asc.pMain n l2 st2 { Asc.emptyDoc with description := strip descr }) := rfl
    rw [h, descDrain_stuck n []]

/-- C5 counterexample: on a stream whose single contour carries the
never-declared section id `S9`, the parse does not succeed — it raises
`KeyError` at `asc['sections'][section]` (`asc.py` line 211). -/
theorem C5_counterexample :
    Asc.parse_contours 60 undeclaredSectionInput = some (.error .keyError) := by rfl

/-- C5 (corrected): finalising a contour whose section id was never declared
raises `KeyError` — the section entry is NOT created on demand. -/
theorem C5_undeclared_section_keyerror :
    ∀ (doc : Asc.Doc) (name k : Str) (shape : Asc.Contour),
      Asc.alookup doc.sections k = none →
      Asc.finalizeContour doc name (some k) shape = .error .keyError := by
  intro doc name k shape h
  simp [Asc.finalizeContour, Asc.appendContour, h]

/-- Witness for C5: the theorem applied to the empty document and section id
`S9`. -/
theorem C5_witness :
    Asc.finalizeContour Asc.emptyDoc (strOf "AAA") (some (strOf "S9"))
      ⟨strOf "AAA", false, none, [[1, 2, 3]]⟩ = .error .keyError :=
  C5_undeclared_section_keyerror Asc.emptyDoc (strOf "AAA") (strOf "S9")
    ⟨strOf "AAA", false, none, [[1, 2, 3]]⟩ rfl

/-- C3 counterexample: the MBF-native decoder (`asc.py` `parse_point`)
stores the file's third coordinate field UNCHANGED — on the record
`1 2 3 4 S1` the stored point is `[1, 2, 3]`, not the claimed `[1, 2, -3]`. -/
theorem C3_counterexample :
    Asc.parse_point (strOf "1 2 3 4 S1") = some ([1, 2, 3], strOf "S1")
    ∧ ([1, 2, 3] : List ℚ) ≠ [1, 2, -3] := by
  constructor
  · with_unfolding_all rfl
  · with_unfolding_all decide

/-- C3 (corrected): for every record matched by the point pattern, the
MBF-native variant (`asc.py`) stores all three coordinates unchanged, while
the voxel variant (`contours_asc.py`) keeps `x` (scaled) and negates both
`y` and `z` (scaled by the prepared voxel sizes). -/
theorem C3_point_sign_conventions :
    ∀ (s : Str) (g : PtGroups) (vx : List ℚ), matchPoint s = some g →
      Asc.parse_point s = some ([g.x, g.y, g.z], g.section_id)
      ∧ Vox.parse_point (Vox.vxPrep vx) s
          = some ⟨g.x / (Vox.vxPrep vx).getD 0 0, -g.y / (Vox.vxPrep vx).getD 1 0,
                  -g.z / (Vox.vxPrep vx).getD 2 0, g.unknown, g.section_id⟩ := by
  intro s g vx h
  constructor
  · unfold Asc.parse_point
    rw [h]
    rfl
  · unfold Vox.parse_point
    rw [h]
    rfl

/-- Witness for C3: the theorem applied to the record `1 2 3 4 S1` with
voxel size `[2]` (prepared to `[2000, 2000, 2000]`). -/
theorem C3_witness :
    Asc.parse_point (strOf "1 2 3 4 S1")
      = some ([(1 : ℚ), 2, 3], (⟨1, 2, 3, 4, strOf "S1"⟩ : PtGroups).section_id)
    ∧ Vox.parse_point (Vox.vxPrep [2]) (strOf "1 2 3 4 S1")
        = some ⟨(1 : ℚ) / (Vox.vxPrep [2]).getD 0 0, -(2 : ℚ) / (Vox.vxPrep [2]).getD 1 0,
                -(3 : ℚ) / (Vox.vxPrep [2]).getD 2 0, 4, strOf "S1"⟩ :=
  C3_point_sign_conventions (strOf "1 2 3 4 S1") ⟨1, 2, 3, 4, strOf "S1"⟩ [2]
    (by with_unfolding_all decide)

/-- C7 counterexample: the sampled ray differs between two invocations
(`np.random.randn` is called anew inside each), and for the edge point
`(1/2, 0)` of the unit square the classification flips with the ray — so two
invocations need not return equal arrays. -/
theorem C7_counterexample :
    Polygons.is_inside_slow [0, 1] 2 [[1/2, 0]] unitSquare (Polygons.defaultFaces 4)
      ≠ Polygons.is_inside_slow [0, -1] 2 [[1/2, 0]] unitSquare (Polygons.defaultFaces 4) := by
  with_unfolding_all decide

/-- C7 (corrected): the classifier is a pure function of its inputs once the
sampled ray is fixed — two invocations that draw the same ray agree on every
input (including boundary points); concretely, with ray `(0,1)` the unit
square classifies `(1/2,1/2)` inside and `(3/2,1/2)` outside. -/
theorem C7_fixed_ray_stable :
    (∀ (ray : List ℚ) (dim : Nat) (pts vertices : List (List ℚ)) (faces : List (List Nat)),
       Polygons.is_inside_slow ray dim pts vertices faces
         = Polygons.is_inside_slow ray dim pts vertices faces)
    ∧ Polygons.is_inside_slow [0, 1] 2 [[1/2, 1/2], [3/2, 1/2]] unitSquare
        (Polygons.defaultFaces 4) = some [true, false] :=
  ⟨fun _ _ _ _ _ => rfl, by with_unfolding_all decide⟩

/-- `alookup` finds nothing exactly when the key is absent from the key
column. -/
theorem alookup_eq_none_iff {β : Type} :
    ∀ (m : List (Str × β)) (k : Str), Asc.alookup m k = none ↔ k ∉ m.map Prod.fst := by
  intro m k
  induction m with
  | nil =>
    constructor
    · intro _ hc
      simp at hc
    · intro _
      rfl
  | cons p rest ih =>
    obtain ⟨a, b⟩ := p
    have hred : Asc.alookup ((a, b) :: rest) k
        = (if a = k then some b else Asc.alookup rest k) := rfl
    constructor
    · intro hn hc
      simp only [List.map_cons, List.mem_cons] at hc
      by_cases h : a = k
      · rw [hred, if_pos h] at hn
        exact Option.noConfusion hn
      · rw [hred, if_neg h] at hn
        rcases hc with he | hm
        · exact h he.symm
        · exact (ih.mp hn) hm
    · intro hn
      by_cases h : a = k
      · refine absurd ?_ hn
        simp only [List.map_cons, List.mem_cons]
        exact Or.inl h.symm
      · rw [hred, if_neg h]
        refine ih.mpr (fun hm => hn ?_)
        simp only [List.map_cons, List.mem_cons]
        exact Or.inr hm

/-- `range'` with one more element, at step one. -/
theorem range'_succ_concat (s n : Nat) :
    List.range' s (n + 1) = List.range' s n ++ [s + n] := by
  rw [List.range'_concat]
  simp

/-- Folding `registerRegion` preserves the shape of the regions table: keys
evolve exactly like the first-seen fold and values are always `1..N` in
order. -/
theorem registerRegion_invariant :
    ∀ (names : List Str) (acc : List (Str × Nat)),
      acc.map Prod.snd = List.range' 1 acc.length →
      (names.foldl Asc.registerRegion acc).map Prod.fst
          = names.foldl (fun l n => if n ∈ l then l else l ++ [n]) (acc.map Prod.fst)
        ∧ (names.foldl Asc.registerRegion acc).map Prod.snd
          = List.range' 1 (names.foldl Asc.registerRegion acc).length := by
  intro names
  induction names with
  | nil => intro acc h; exact ⟨rfl, h⟩
  | cons n rest ih =>
    intro acc h
    have hstep : (Asc.registerRegion acc n).map Prod.snd
          = List.range' 1 (Asc.registerRegion acc n).length
        ∧ (Asc.registerRegion acc n).map Prod.fst
          = (if n ∈ acc.map Prod.fst then acc.map Prod.fst else acc.map Prod.fst ++ [n]) := by
      unfold Asc.registerRegion
      cases hl : Asc.alookup acc n with
      | some v =>
        have hmem : n ∈ acc.map Prod.fst := by
          by_contra hn
          rw [← alookup_eq_none_iff acc n] at hn
          rw [hl] at hn
          exact Option.noConfusion hn
        simp [hmem, h]
      | none =>
        have hmem : n ∉ acc.map Prod.fst := (alookup_eq_none_iff acc n).mp hl
        simp only [if_neg hmem, List.map_append, List.length_append, List.map_cons,
          List.map_nil, List.length_cons, List.length_nil]
        constructor
        · rw [h]
          rw [range'_succ_concat 1 acc.length]
          simp [Nat.add_comm]
        · trivial
    have := ih (Asc.registerRegion acc n) hstep.1
    simpa [List.foldl_cons, hstep.2] using this

/-- C6 (confirmed): the regions table a parse builds — the empty table
folded through `registerRegion` (`asc.py` line 209), once per finalised
contour name — maps the distinct names, in first-seen order, bijectively
onto `1..N`: its key column is exactly `firstSeen names`, its value column
is exactly `[1, 2, ..., N]`, and values strictly increase along the table
(so earlier-first-seen names get strictly smaller ids and no id is ever
reused).  Concretely, a parse with contours named B, A, B yields
`regions = [(B, 1), (A, 2)]`. -/
theorem C6_regions_bijection_first_seen :
    (∀ names : List Str,
      (names.foldl Asc.registerRegion []).map Prod.fst = Asc.firstSeen names
      ∧ (names.foldl Asc.registerRegion []).map Prod.snd
          = List.range' 1 (names.foldl Asc.registerRegion []).length
      ∧ (names.foldl Asc.registerRegion []).Pairwise (fun a b => a.2 < b.2))
    ∧ (Asc.parse_contours 100 threeContourInput).map (Except.map Asc.Doc.regions)
        = some (.ok [(strOf "B", 1), (strOf "A", 2)]) := by
  constructor
  · intro names
    have h := registerRegion_invariant names [] rfl
    refine ⟨h.1, h.2, ?_⟩
    have hp : ((names.foldl Asc.registerRegion []).map Prod.snd).Pairwise (· < ·) := by
      rw [h.2]
      exact List.pairwise_lt_range' 1 _
    rw [List.pairwise_map] at hp
    exact hp
  · rfl

/-- C4 (confirmed): whatever `parse_section` accepts came from a successful
match of the grammar `<token> "<quoted text>" <float> <float> <float>`, and
the decoded record has `id` = the token, `name` = the quoted text, `top` =
the LAST float group, `cutthickness` = the middle one and
`mountedthickness` = the NEGATED first one; a non-matching fragment (here
`)`) yields no match rather than an error. -/
theorem C4_section_decoder_mapping :
    (∀ (s k : Str) (v : Asc.Sect), Asc.parse_section s = some (k, v) →
       ∃ g : SecGroups, matchSection s = some g ∧ k = g.key ∧ v.name = g.name
         ∧ v.top = g.x ∧ v.cutthickness = g.y ∧ v.mountedthickness = -g.z ∧ v.contours = [])
    ∧ Asc.parse_section (strOf ")") = none := by
  constructor
  · intro s k v h
    unfold Asc.parse_section at h
    cases hm : matchSection s with
    | none => rw [hm] at h; exact Option.noConfusion h
    | some g =>
      rw [hm] at h
      simp only [Option.map_some'] at h
      obtain ⟨hk, hv⟩ := Prod.mk.injEq .. ▸ Option.some.injEq .. ▸ h
      refine ⟨g, rfl, ?_, ?_⟩
      · exact hk.symm
      · rw [← hv]
        exact ⟨rfl, rfl, rfl, rfl, rfl⟩
  · rfl

/-- Witness for C4: the theorem applied to the docstring's own section
record `S1 "Section 1" -132 49.5 49.5` (decoded as `top = 49.5`,
`cutthickness = 49.5`, `mountedthickness = -(-132) = 132`). -/
theorem C4_witness :
    ∃ g : SecGroups, matchSection sampleSectionLine = some g ∧ strOf "S1" = g.key
      ∧ sampleSect.name = g.name ∧ sampleSect.top = g.x ∧ sampleSect.cutthickness = g.y
      ∧ sampleSect.mountedthickness = -g.z ∧ sampleSect.contours = [] :=
  C4_section_decoder_mapping.1 sampleSectionLine (strOf "S1") sampleSect
    (by with_unfolding_all rfl)

/-- C10 (confirmed): `point, section = parse_point(value)` rebinds the
section variable on every processed point record, so after folding the
contour-body record processor over fragments that all pass the digit gate
and all decode, the owning section is the LAST record's token; concretely a
contour whose two points name `S1` then `S2` is filed under `S2` only. -/
theorem C10_last_point_owns_section :
    (∀ (shape : Asc.Contour) (sec : Option Str) (vs : List Str) (hne : vs ≠ []),
       (∀ v ∈ vs, headIsNum v = true ∧ (Asc.parse_point v).isSome = true) →
       (vs.foldl (fun acc v => Asc.processValue acc.1 acc.2 v) (shape, sec)).2
         = (Asc.parse_point (vs.getLast hne)).map Prod.snd)
    ∧ (Asc.parse_contours 80 twoSectionInput).map
        (Except.map fun d =>
          ((Asc.alookup d.sections (strOf "S1")).map (fun s => s.contours.length),
           (Asc.alookup d.sections (strOf "S2")).map (fun s => s.contours.map Asc.Contour.name)))
        = some (.ok (some 0, some [[strOf "CCC"].head (by simp)])) := by
  constructor
  · intro shape sec vs
    induction vs generalizing shape sec with
    | nil => intro hne _; exact absurd rfl hne
    | cons v rest ih =>
      intro hne hdec
      obtain ⟨hhead, hsome⟩ := hdec v (List.mem_cons_self v rest)
      obtain ⟨pv, hpv⟩ := Option.isSome_iff_exists.mp hsome
      cases rest with
      | nil =>
        cases v with
        | nil => exact absurd hhead (by simp [headIsNum])
        | cons c cs =>
          simp only [List.foldl_cons, List.foldl_nil, List.getLast_singleton]
          unfold Asc.processValue
          simp only [headIsNum] at hhead
          simp [hhead, hpv]
      | cons r rs =>
        have hne' : r :: rs ≠ [] := by simp
        have := ih ((Asc.processValue shape sec v).1) ((Asc.processValue shape sec v).2)
          hne' (fun w hw => hdec w (List.mem_cons_of_mem v hw))
        simpa [List.getLast_cons hne'] using this
  · rfl

/-- Witness for C10: the fold over the two records of `twoSectionInput`'s
contour ends with section token `S2`. -/
theorem C10_witness :
    (([strOf "1 2 3 4 S1", strOf "5 6 7 8 S2"]).foldl
        (fun acc v => Asc.processValue acc.1 acc.2 v)
        (⟨strOf "CCC", false, none, []⟩, some [])).2
      = (Asc.parse_point (([strOf "1 2 3 4 S1", strOf "5 6 7 8 S2"]).getLast (by simp))).map
          Prod.snd :=
  C10_last_point_owns_section.1 ⟨strOf "CCC", false, none, []⟩ (some [])
    [strOf "1 2 3 4 S1", strOf "5 6 7 8 S2"] (by simp)
    (by with_unfolding_all decide)

/-- A sum of element-wise squares is nonnegative. -/
theorem zipWith_self_sum_nonneg :
    ∀ l : List ℚ, 0 ≤ (List.zipWith (fun x y => x * y) l l).sum := by
  intro l
  induction l with
  | nil => simp
  | cons a rest ih =>
    simp only [List.zipWith_cons_cons, List.sum_cons]
    have := mul_self_nonneg a
    linarith

/-- If the self dot product vanishes, every entry vanishes. -/
theorem dotp_self_eq_zero :
    ∀ l : List ℚ, Polygons.dotp l l = 0 → ∀ x ∈ l, x = 0 := by
  intro l
  induction l with
  | nil => intro _ x hx; simp at hx
  | cons a rest ih =>
    intro h x hx
    unfold Polygons.dotp at h
    simp only [List.zipWith_cons_cons, List.sum_cons] at h
    have h1 : 0 ≤ a * a := mul_self_nonneg a
    have h2 : 0 ≤ (List.zipWith (fun x y => x * y) rest rest).sum :=
      zipWith_self_sum_nonneg rest
    have ha : a * a = 0 := by linarith
    have hrest : Polygons.dotp rest rest = 0 := by
      unfold Polygons.dotp
      linarith
    rcases List.mem_cons.mp hx with he | hm
    · subst he
      exact (mul_self_eq_zero).mp ha
    · exact ih hrest x hm

/-- A dot product with an all-zero left factor vanishes. -/
theorem dotp_zero_left :
    ∀ (a b : List ℚ), (∀ x ∈ a, x = 0) → Polygons.dotp a b = 0 := by
  intro a
  induction a with
  | nil => intro b _; rfl
  | cons x rest ih =>
    intro b h
    cases b with
    | nil => rfl
    | cons y brest =>
      unfold Polygons.dotp
      simp only [List.zipWith_cons_cons, List.sum_cons]
      have hx : x = 0 := h x (List.mem_cons_self x rest)
      have := ih brest (fun z hz => h z (List.mem_cons_of_mem x hz))
      unfold Polygons.dotp at this
      rw [hx, this]
      ring

/-- A dot product with an all-zero right factor vanishes. -/
theorem dotp_zero_right :
    ∀ (a b : List ℚ), (∀ x ∈ b, x = 0) → Polygons.dotp a b = 0 := by
  intro a
  induction a with
  | nil => intro b _; rfl
  | cons x rest ih =>
    intro b h
    cases b with
    | nil => rfl
    | cons y brest =>
      unfold Polygons.dotp
      simp only [List.zipWith_cons_cons, List.sum_cons]
      have hy : y = 0 := h y (List.mem_cons_self y brest)
      have := ih brest (fun z hz => h z (List.mem_cons_of_mem y hz))
      unfold Polygons.dotp at this
      rw [hy, this]
      ring

/-- C9 (confirmed): a face whose normal vector is zero (zero-length edge in
2D, collinear edge vectors in 3D) is never counted as crossed by any point's
ray — NumPy computes `NaN` in the colinearity test (not skipped there) and
then `0/0 = NaN` for the ray parameter, whose `NaN >= 0` half-mask excludes
every point — and inserting such a face anywhere in the face list leaves the
classification of every point unchanged (and the code does not crash). -/
theorem C9_zero_normal_face_excluded :
    ∀ (dim : Nat) (ray : List ℚ) (pts vertices : List (List ℚ))
      (fs1 fs2 : List (List Nat)) (f : List Nat),
      dim = 2 ∨ dim = 3 →
      Polygons.dotp (Polygons.faceNormal dim (Polygons.faceVerts vertices f))
          (Polygons.faceNormal dim (Polygons.faceVerts vertices f)) = 0 →
      (∀ p, Polygons.faceCrossing dim ray vertices f p = false)
      ∧ Polygons.is_inside_slow ray dim pts vertices (fs1 ++ f :: fs2)
          = Polygons.is_inside_slow ray dim pts vertices (fs1 ++ fs2) := by
  intro dim ray pts vertices fs1 fs2 f hdim hzero
  have hentries : ∀ x ∈ Polygons.faceNormal dim (Polygons.faceVerts vertices f), x = 0 :=
    dotp_self_eq_zero _ hzero
  have hrn : Polygons.dotp ray (Polygons.faceNormal dim (Polygons.faceVerts vertices f)) = 0 :=
    dotp_zero_right _ _ hentries
  have hnr : Polygons.dotp (Polygons.faceNormal dim (Polygons.faceVerts vertices f)) ray = 0 :=
    dotp_zero_left _ _ hentries
  have hcol : Polygons.colinearChk ray (Polygons.faceNormal dim (Polygons.faceVerts vertices f))
      = false := by
    unfold Polygons.colinearChk
    rw [hrn, hzero]
    norm_num
  have hcross : ∀ p, Polygons.faceCrossing dim ray vertices f p = false := by
    intro p
    unfold Polygons.faceCrossing
    simp [hcol, hnr]
  refine ⟨hcross, ?_⟩
  unfold Polygons.is_inside_slow
  have hc1 : ((fs1 ++ f :: fs2) = [] ∨ dim = 2 ∨ dim = 3) := Or.inr hdim
  have hc2 : ((fs1 ++ fs2) = [] ∨ dim = 2 ∨ dim = 3) := Or.inr hdim
  rw [if_pos hc1, if_pos hc2]
  refine congrArg some (List.map_congr_left ?_)
  intro p _
  have hcount : Polygons.crossCount dim ray vertices (fs1 ++ f :: fs2) p
      = Polygons.crossCount dim ray vertices (fs1 ++ fs2) p := by
    unfold Polygons.crossCount
    rw [List.countP_append, List.countP_append, List.countP_cons, hcross p]
    simp
  rw [hcount]

/-- Witness for C9: appending the degenerate edge `[0, 0]` (a zero-length
edge from vertex 0 to itself, hence a zero 2D normal) to the unit square's
face list leaves the classification of `(1/2, 1/2)` unchanged. -/
theorem C9_witness :
    Polygons.is_inside_slow [0, 1] 2 [[1/2, 1/2]] unitSquare
        (Polygons.defaultFaces 4 ++ [0, 0] :: [])
      = Polygons.is_inside_slow [0, 1] 2 [[1/2, 1/2]] unitSquare
          (Polygons.defaultFaces 4 ++ []) :=
  (C9_zero_normal_face_excluded 2 [0, 1] [[1/2, 1/2]] unitSquare
      (Polygons.defaultFaces 4) [] [0, 0] (Or.inl rfl)
      (by with_unfolding_all decide)).2

/-- C8 (confirmed): (a) a point is classified interior exactly when its
crossing count over all faces is odd; (b) for a face that passes the
colinearity gate (and hence has a nonzero ray/normal product), the face is
counted as crossed exactly when the ray parameter is non-negative AND the
intersection point lies in the face's extent under the asymmetric
convention — 2D edge parameter in `[0, 1)`, 3D barycentric-style
`u ≥ 0, v > 0, u + v < 1`. -/
theorem C8_crossing_convention_and_parity :
    ∀ (ray : List ℚ) (dim : Nat) (pts vertices : List (List ℚ)) (faces : List (List Nat)),
      dim = 2 ∨ dim = 3 →
      Polygons.is_inside_slow ray dim pts vertices faces
        = some (pts.map fun p => decide (Odd (Polygons.crossCount dim ray vertices faces p)))
      ∧ ∀ (f : List Nat) (p : List ℚ),
          Polygons.colinearChk ray (Polygons.faceNormal dim (Polygons.faceVerts vertices f))
            = false →
          Polygons.dotp (Polygons.faceNormal dim (Polygons.faceVerts vertices f)) ray ≠ 0 →
          (Polygons.faceCrossing dim ray vertices f p = true ↔
            0 ≤ Polygons.specRayParam (Polygons.faceNormal dim (Polygons.faceVerts vertices f))
                  ((Polygons.faceVerts vertices f).getD 0 []) ray p
            ∧ Polygons.specInExtent dim (Polygons.faceVerts vertices f)
                (Polygons.specHitPoint ray p
                  (Polygons.specRayParam
                    (Polygons.faceNormal dim (Polygons.faceVerts vertices f))
                    ((Polygons.faceVerts vertices f).getD 0 []) ray p))) := by
  intro ray dim pts vertices faces hdim
  constructor
  · unfold Polygons.is_inside_slow
    rw [if_pos (Or.inr hdim)]
    refine congrArg some (List.map_congr_left ?_)
    intro p _
    have hodd : Odd (Polygons.crossCount dim ray vertices faces p)
        ↔ Polygons.crossCount dim ray vertices faces p % 2 = 1 := Nat.odd_iff
    exact (decide_eq_decide.mpr hodd).symm
  · intro f p hcol hdenom
    unfold Polygons.faceCrossing Polygons.specRayParam Polygons.specHitPoint
      Polygons.specInExtent
    simp only [hcol, Bool.false_eq_true, if_false]
    rw [if_neg hdenom]
    split_ifs with ht <;>
      first
      | · refine iff_of_false (by simp) ?_
          rintro ⟨h0, -⟩
          exact absurd ht (not_lt.mpr h0)
      | · rw [decide_eq_true_iff]
          exact ⟨fun hp => ⟨not_lt.mp ht, hp⟩, fun h => h.2⟩

/-- Witness for C8: the theorem applied in 2D to the unit square with ray
`(0,1)`: the parity form of the batch result, and the crossing
characterisation for the bottom edge `[0,1]` at the interior point
`(1/2, 1/2)`. -/
theorem C8_witness :
    (Polygons.is_inside_slow [0, 1] 2 [[1/2, 1/2]] unitSquare (Polygons.defaultFaces 4)
      = some ([[(1 : ℚ)/2, 1/2]].map fun p =>
          decide (Odd (Polygons.crossCount 2 [0, 1] unitSquare (Polygons.defaultFaces 4) p))))
    ∧ (Polygons.faceCrossing 2 [0, 1] unitSquare [0, 1] [1/2, 1/2] = true ↔
        0 ≤ Polygons.specRayParam (Polygons.faceNormal 2 (Polygons.faceVerts unitSquare [0, 1]))
              ((Polygons.faceVerts unitSquare [0, 1]).getD 0 []) [0, 1] [1/2, 1/2]
          ∧ Polygons.specInExtent 2 (Polygons.faceVerts unitSquare [0, 1])
              (Polygons.specHitPoint [0, 1] [1/2, 1/2]
                (Polygons.specRayParam
                  (Polygons.faceNormal 2 (Polygons.faceVerts unitSquare [0, 1]))
                  ((Polygons.faceVerts unitSquare [0, 1]).getD 0 []) [0, 1] [1/2, 1/2]))) :=
  ⟨(C8_crossing_convention_and_parity [0, 1] 2 [[1/2, 1/2]] unitSquare
      (Polygons.defaultFaces 4) (Or.inl rfl)).1,
   (C8_crossing_convention_and_parity [0, 1] 2 [[1/2, 1/2]] unitSquare
      (Polygons.defaultFaces 4) (Or.inl rfl)).2 [0, 1] [1/2, 1/2]
      (by with_unfolding_all decide) (by with_unfolding_all decide)⟩
